import Mathlib

/-!
Verification of the `llm_adapter_claw` context-optimizing proxy.

This file gives a shallow embedding, in Lean, of the core components of the
`llm_adapter_claw` repository (a context-optimizing reverse proxy for
chat-completion APIs): the request sanitizer, the rule-based intent
classifier, the sliding-window context assembler, the circuit breaker, the
provider registry, the memory retriever's threshold filter, the forward
client's retry loop, the payload builder, and the hash embedder.  Each
definition is translated directly from the corresponding Python source
(`src/llm_adapter_claw/...`); Python-specific behaviours (truthiness of
strings and lists, `dict.get` defaults, negative-index slicing, `split` with
a limit) are modelled by small helper functions whose semantics match the
Python builtins on the inputs the code uses.

Theorems then settle the testable properties stated in the specification.
-/

namespace Claw

/-! ## Python-semantics helpers -/

/-- Python `sub in s` on strings: `sub` occurs as a contiguous substring. -/
def pyStrContains (s sub : String) : Bool := decide (sub.data <:+: s.data)

/-- Python truthiness of an optional string: `None` and `""` are falsy. -/
def pyTruthy : Option String → Bool
  | none => false
  | some s => s ≠ ""

/-- Python `l[start:]` where `start` may be negative (counts from the end,
clamped at 0).  `l[-0:]` is `l[0:]`, the whole list. -/
def pySliceFrom {α : Type} (l : List α) (start : Int) : List α :=
  if start < 0 then l.drop (l.length - start.natAbs) else l.drop start.toNat

/-- Python `l[-k:]` for an integer `k` (the slice start is `-k`). -/
def pyLastSlice {α : Type} (l : List α) (k : Int) : List α :=
  pySliceFrom l (-k)

/-! ## Data model (`models/__init__.py`)

`Message.tool_calls` is `Optional[list[dict]]` in the source and is only ever
inspected for truthiness or dropped, never read field-by-field; `None` and
`[]` behave identically everywhere, so it is modelled as a `List Unit`
(the dicts are opaque).  Likewise `ChatRequest.tools`. -/

structure Message where
  role : String
  content : Option String := none
  name : Option String := none
  tool_calls : List Unit := []
  tool_call_id : Option String := none
deriving DecidableEq, Repr

instance : Inhabited Message := ⟨{ role := "user" }⟩

structure ChatRequest where
  model : String
  messages : List Message
  temperature : ℚ := 7/10
  max_tokens : Option ℕ := none
  stream : Bool := false
  tools : List Unit := []
  tool_choice : Option String := none
deriving DecidableEq, Repr

/-! ## Request sanitizer (`core/sanitizer.py`) -/

def CODE_MARKERS : List String := ["```", "`", "    ", "\t"]

def TOOL_MARKERS : List String := ["tool_calls", "tool_call_id", "function"]

def ATTACHMENT_MARKERS : List String :=
  ["[Attached file", "[File:", "<file>", "content-type:", "data:application"]

structure MessageFlags where
  has_code_block : Bool := false
  has_tool_call : Bool := false
  has_attachment : Bool := false
  is_system_prompt : Bool := false
  should_preserve : Bool := false
deriving DecidableEq, Repr

instance : Inhabited MessageFlags := ⟨{}⟩

/-- Model of `RequestSanitizer._analyze_message`.  Note that `has_tool_call` is set not
only by the `tool_calls` / `tool_call_id` fields but also by the literal
`TOOL_MARKERS` occurring in the content. -/
def analyzeMessage (msg : Message) : MessageFlags :=
  let content := msg.content.getD ""
  let has_code := CODE_MARKERS.any (fun marker => pyStrContains content marker)
  let has_tool := !msg.tool_calls.isEmpty || pyTruthy msg.tool_call_id ||
    TOOL_MARKERS.any (fun marker => pyStrContains content marker)
  let has_attachment := ATTACHMENT_MARKERS.any
    (fun marker => pyStrContains content.toLower marker.toLower)
  let is_system := msg.role == "system"
  let should_preserve := has_tool || (has_code && decide (content.length > 500))
  { has_code_block := has_code
    has_tool_call := has_tool
    has_attachment := has_attachment
    is_system_prompt := is_system
    should_preserve := should_preserve }

/-- Model of `RequestSanitizer.sanitize`: the flags map, indexed by message position. -/
def sanitize (req : ChatRequest) : List MessageFlags :=
  req.messages.map analyzeMessage

/-- The pipeline's `preserve_flags` dict derived from `sanitize`, read with
`dict.get(idx, False)` semantics (out-of-range indices are `False`). -/
def preserveFlags (req : ChatRequest) : ℕ → Bool :=
  fun idx => ((sanitize req).getD idx default).should_preserve

/-! ## Intent classifier (`core/classifier.py`) -/

inductive Intent where
  | casual
  | coding
  | retrieval
  | tool_use
  | document
  | unknown
deriving DecidableEq, Repr

def CODING_KEYWORDS : List String :=
  ["code", "编程", "函数", "class", "def", "import",
   "bug", "error", "exception", "debug", "fix",
   "python", "javascript", "typescript", "rust", "go",
   "implement", "write a script", "refactor"]

def RETRIEVAL_KEYWORDS : List String :=
  ["remember", "recall", "what did", "之前", "上次",
   "find", "search", "look up", "查询", "查找",
   "history", "past", "previous", "earlier"]

def DOCUMENT_KEYWORDS : List String :=
  ["file", "document", "pdf", "markdown", "readme",
   "analyze this", "review the", "文档", "文件"]

/-- The content of the last `user`-role message, with `None` content read as
`""` (mirroring `msg.content or ""` in the source); `none` when no user
message exists at all. -/
def lastUserContent (msgs : List Message) : Option String :=
  (msgs.reverse.find? (fun m => m.role == "user")).map (fun m => m.content.getD "")

/-- Model of `RuleBasedClassifier._has_tool_indicators`. -/
def hasToolIndicators (req : ChatRequest) : Bool :=
  req.messages.any (fun m => !m.tool_calls.isEmpty || pyTruthy m.tool_call_id)

/-- Model of `RuleBasedClassifier.classify`.  The source returns `UNKNOWN` as soon as
the last user message is missing or empty — before the tool-use check. -/
def classify (req : ChatRequest) : Intent :=
  match lastUserContent req.messages with
  | none => Intent.unknown
  | some c =>
    if c = "" then Intent.unknown
    else
      let lower := c.toLower
      if !req.tools.isEmpty || hasToolIndicators req then Intent.tool_use
      else if CODING_KEYWORDS.any (fun kw => pyStrContains lower kw) then Intent.coding
      else if RETRIEVAL_KEYWORDS.any (fun kw => pyStrContains lower kw) then Intent.retrieval
      else if DOCUMENT_KEYWORDS.any (fun kw => pyStrContains lower kw) then Intent.document
      else Intent.casual

/-! ## Sliding-window assembler (`core/assembly_config.py`, `core/sliding_window.py`, `core/assembler.py`)

The two float window multipliers used by the source are `1.0` and `1.5`
(`ContextAssembler._retrieval_strategy` passes `window_mult=1.5`, every other
strategy uses the default `1.0`).  `int(n * 1.5)` on the non-negative integer
config values is exactly `n * 3 / 2` in natural division, and `int(n * 1.0)`
is `n`; the multiplier is therefore a `Bool` (`true` for `1.5`). -/

structure AssemblyConfig where
  preserve_last_n : ℕ := 2
  max_history_tokens : ℕ := 2000
  enable_system_cleanup : Bool := true
  max_messages : ℕ := 20
deriving DecidableEq, Repr

/-- Value of `int(n * window_mult)` for the two multipliers actually used. -/
def scaled (n : ℕ) (mult15 : Bool) : ℕ := if mult15 then n * 3 / 2 else n

/-- Value of `recent_start = max(1, len(messages) - recent_count)` in `SlidingWindow.apply`. -/
def recentStart (cfg : AssemblyConfig) (len : ℕ) (mult15 : Bool) : ℕ :=
  max 1 (len - scaled cfg.preserve_last_n mult15)

/-- Model of `SlidingWindow._truncate`: keep the system head (if any) plus the last
`max_msgs - 1` entries, via Python's negative slicing. -/
def truncateWindow (msgs : List Message) (maxMsgs : ℕ) : List Message :=
  match msgs with
  | [] => []
  | h :: _ =>
    let sysOpt : List Message := if h.role == "system" then [h] else []
    let keepCount : Int := (maxMsgs : Int) - sysOpt.length
    sysOpt ++ pyLastSlice msgs keepCount

/-- The `if messages and messages[0].role == "system"` head of
`SlidingWindow.apply`. -/
def sysHead (msgs : List Message) : List Message :=
  match msgs with
  | m :: _ => if m.role == "system" then [m] else []
  | [] => []

/-- The flagged middle messages (`for idx in range(1, recent_start): if
preserve_flags.get(idx, False): preserved.append(messages[idx])`). -/
def midFlagged (msgs : List Message) (flags : ℕ → Bool) (rs : ℕ) : List Message :=
  ((List.range' 1 (rs - 1)).filter flags).map (fun i => msgs.getD i default)

/-- The `preserved` list of `SlidingWindow.apply` before the truncation
check: system head, flagged middles, recent tail, in order. -/
def preservedList (cfg : AssemblyConfig) (msgs : List Message) (flags : ℕ → Bool)
    (mult15 : Bool) : List Message :=
  sysHead msgs ++ midFlagged msgs flags (recentStart cfg msgs.length mult15) ++
    msgs.drop (recentStart cfg msgs.length mult15)

/-- Model of `SlidingWindow.apply`. -/
def slidingApply (cfg : AssemblyConfig) (msgs : List Message) (flags : ℕ → Bool)
    (mult15 : Bool) : List Message :=
  if msgs.length ≤ cfg.preserve_last_n + 1 then msgs
  else
    let maxMsgs := scaled cfg.max_messages mult15
    let preserved := preservedList cfg msgs flags mult15
    if maxMsgs < preserved.length then truncateWindow preserved maxMsgs else preserved

/-- Model of `ContextAssembler.assemble`: passthrough on `tool_use`, otherwise the
sliding window with the retrieval multiplier, rebuilding the request with the
filtered messages and all other fields unchanged. -/
def assemble (cfg : AssemblyConfig) (req : ChatRequest) (intent : Intent)
    (flags : ℕ → Bool) : ChatRequest :=
  if intent = Intent.tool_use then req
  else { req with messages :=
          slidingApply cfg req.messages flags (decide (intent = Intent.retrieval)) }

/-! ## Circuit breaker (`core/circuit_breaker.py`)

Wall-clock instants (`time.time()`) are passed explicitly as rational
parameters; `record_failure` takes the instant it stamps into
`last_failure_time`, and `can_execute` takes the instant it compares against. -/

inductive CircuitState where
  | closed
  | opened
  | halfOpen
deriving DecidableEq, Repr

structure CBConfig where
  failure_threshold : ℕ := 5
  recovery_timeout : ℚ := 60
  half_open_max_calls : ℕ := 3
  success_threshold : ℕ := 2
deriving DecidableEq, Repr

structure CBState where
  state : CircuitState := CircuitState.closed
  failure_count : ℕ := 0
  success_count : ℕ := 0
  last_failure_time : ℚ := 0
  total_failures : ℕ := 0
  total_successes : ℕ := 0
  state_changes : ℕ := 0
  half_open_calls : ℕ := 0
deriving DecidableEq, Repr

/-- A freshly constructed breaker: `CLOSED` with zeroed statistics. -/
def initialCBState : CBState := {}

/-- Model of `CircuitBreaker._transition_to` (the state-change callback is external and
has no effect on breaker state). -/
def transitionTo (s : CBState) (new : CircuitState) : CBState :=
  if s.state = new then s
  else
    let base := { s with state := new, state_changes := s.state_changes + 1 }
    match new with
    | CircuitState.closed =>
        { base with failure_count := 0, success_count := 0, half_open_calls := 0 }
    | CircuitState.opened =>
        { base with success_count := 0, half_open_calls := 0 }
    | CircuitState.halfOpen =>
        { base with failure_count := 0, success_count := 0, half_open_calls := 0 }

/-- Model of `CircuitBreaker.can_execute`: the returned flag together with the state
after the call (the source mutates in place). -/
def canExecute (cfg : CBConfig) (now : ℚ) (s : CBState) : Bool × CBState :=
  match s.state with
  | CircuitState.closed => (true, s)
  | CircuitState.opened =>
      if cfg.recovery_timeout ≤ now - s.last_failure_time then
        (true, { transitionTo s CircuitState.halfOpen with half_open_calls := 0 })
      else (false, s)
  | CircuitState.halfOpen =>
      if s.half_open_calls < cfg.half_open_max_calls then
        (true, { s with half_open_calls := s.half_open_calls + 1 })
      else (false, s)

/-- Model of `CircuitBreaker.record_success`. -/
def recordSuccess (cfg : CBConfig) (s : CBState) : CBState :=
  let s1 := { s with total_successes := s.total_successes + 1,
                     success_count := s.success_count + 1 }
  if s1.state = CircuitState.halfOpen then
    if cfg.success_threshold ≤ s1.success_count then transitionTo s1 CircuitState.closed
    else s1
  else if s1.state = CircuitState.closed then
    if 0 < s1.failure_count then { s1 with failure_count := 0 } else s1
  else s1

/-- Model of `CircuitBreaker.record_failure`. -/
def recordFailure (cfg : CBConfig) (now : ℚ) (s : CBState) : CBState :=
  let s1 := { s with total_failures := s.total_failures + 1,
                     failure_count := s.failure_count + 1,
                     last_failure_time := now }
  if s1.state = CircuitState.halfOpen then transitionTo s1 CircuitState.opened
  else if s1.state = CircuitState.closed then
    if cfg.failure_threshold ≤ s1.failure_count then transitionTo s1 CircuitState.opened
    else s1
  else s1

/-- A sequence of consecutive `record_failure` calls at the given instants. -/
def failSeq (cfg : CBConfig) (ts : List ℚ) (s : CBState) : CBState :=
  ts.foldl (fun st t => recordFailure cfg t st) s

/-! ## Provider registry (`providers/registry.py`)

The registry's `dict[str, LLMProvider]` is modelled as the list of providers
in insertion order plus the default id; `dict` lookup is `find?` on the id
(ids are unique dict keys). -/

structure LLMProvider where
  id : String
  name : String
  base_url : String
  api_key : String := ""
  default_model : String := ""
  models : List String := []
  timeout : ℕ := 120
  max_retries : ℕ := 3
  enabled : Bool := true
  headers : List (String × String) := []
  extra_body : List (String × String) := []
deriving DecidableEq, Repr

structure ProviderRegistry where
  providers : List LLMProvider
  default : Option String
deriving DecidableEq, Repr

/-- Dictionary lookup `self._providers.get(key)`. -/
def dictGet (reg : ProviderRegistry) (key : String) : Option LLMProvider :=
  reg.providers.find? (fun p => p.id == key)

/-- Python `":" in model`, on the character list. -/
def hasColon (m : String) : Bool := m.data.contains ':'

/-- The part of the model string before the first `":"`
(`model.split(":", 1)[0]`): the characters up to the first colon. -/
def beforeColon (m : String) : String := String.mk (m.data.takeWhile (fun c => c ≠ ':'))

/-- The prefix-routing branch of `get_provider_for_model`: a provider is
returned here only when the model contains `":"`, its id part is a registered
provider, and that provider is enabled; otherwise control falls through. -/
def colonHit (reg : ProviderRegistry) (m : String) : Option LLMProvider :=
  if hasColon m then
    match dictGet reg (beforeColon m) with
    | some p => if p.enabled then some p else none
    | none => none
  else none

/-- The first enabled provider, in insertion order, whose `models` list
contains the (full) model string. -/
def firstListed (reg : ProviderRegistry) (m : String) : Option LLMProvider :=
  reg.providers.find? (fun p => p.enabled && p.models.contains m)

/-- Model of `ProviderRegistry.get_provider(None)`: the default provider looked up by
id — with no check of its `enabled` flag. -/
def defaultLookup (reg : ProviderRegistry) : Option LLMProvider :=
  match reg.default with
  | none => none
  | some d => dictGet reg d

/-- Model of `ProviderRegistry.get_provider_for_model`. -/
def getProviderForModel (reg : ProviderRegistry) (m : String) : Option LLMProvider :=
  match colonHit reg m with
  | some p => some p
  | none =>
    match firstListed reg m with
    | some p => some p
    | none => defaultLookup reg

/-! ## Memory retriever threshold filter (`memory/retriever.py`)

`store.search` results are dicts that may carry either a `similarity` or a
`distance` key; `MemoryRetriever.retrieve` filters them with
`r.get("similarity", 1.0) >= threshold or r.get("distance", 0) <= 1 - threshold`. -/

structure SearchResult where
  id : String
  text : String
  similarity : Option ℚ := none
  distance : Option ℚ := none
deriving DecidableEq, Repr

/-- The per-result predicate of `MemoryRetriever.retrieve`, with the
`dict.get` defaults of the source (`similarity` defaults to `1.0`,
`distance` to `0`). -/
def passesThreshold (threshold : ℚ) (r : SearchResult) : Bool :=
  decide (threshold ≤ r.similarity.getD 1) || decide (r.distance.getD 0 ≤ 1 - threshold)

/-- The filtering step of `MemoryRetriever.retrieve` applied to the raw store
results. -/
def retrieveFiltered (threshold : ℚ) (results : List SearchResult) : List SearchResult :=
  results.filter (passesThreshold threshold)

/-- The `include_metadata=False` return shape: just the texts. -/
def retrieveTexts (threshold : ℚ) (results : List SearchResult) : List String :=
  (retrieveFiltered threshold results).map (fun r => r.text)

/-! ## Forward client retry loop (`core/proxy_client.py`)

`LLMClient.forward` is decorated with
`@retry(stop=stop_after_attempt(3), wait=wait_exponential(...))` — tenacity
with no `retry=` predicate, which retries on *every* raised exception and
caps the total number of attempts at 3.  Inside an attempt,
`response.raise_for_status()` raises for every HTTP status ≥ 400 (4xx and
5xx alike), and transport failures raise as well.  An attempt is modelled by
its outcome; a run of `forward` by the infinite sequence of outcomes the
upstream would produce on successive attempts. -/

inductive Outcome where
  | success
  | httpError (status : ℕ)
  | transportError
deriving DecidableEq, Repr

/-- Whether an attempt with this outcome raises an exception inside `forward`
(`raise_for_status` raises exactly for status ≥ 400). -/
def raisesError : Outcome → Bool
  | Outcome.success => false
  | Outcome.httpError status => 400 ≤ status
  | Outcome.transportError => true

/-- The number of attempts `forward` makes under tenacity's
`stop_after_attempt(3)` with the default retry-on-any-exception predicate:
it stops at the first non-raising attempt and never exceeds 3 attempts,
whatever the provider's `max_retries` is. -/
def forwardAttempts (f : ℕ → Outcome) : ℕ :=
  if raisesError (f 0) = false then 1
  else if raisesError (f 1) = false then 2
  else 3

/-! ## Payload builder (`core/pipeline.py`, `_to_payload`)

Each message is serialized as the dict
`{"role": ..., "content": ..., **({"name": m.name} if m.name else {})}` —
the `tool_calls` / `tool_call_id` fields of the message are never emitted.
A dict is modelled as its key/value list in construction order. -/

inductive PValue where
  | vStr (s : String)
  | vNull
deriving DecidableEq, Repr

/-- The per-message dict built by `ProcessingPipeline._to_payload`. -/
def payloadMessage (m : Message) : List (String × PValue) :=
  [("role", PValue.vStr m.role),
   ("content", match m.content with | some c => PValue.vStr c | none => PValue.vNull)]
  ++ (if pyTruthy m.name then [("name", PValue.vStr (m.name.getD ""))] else [])

/-- The `"messages"` entry of the payload `_to_payload` builds. -/
def toPayloadMessages (msgs : List Message) : List (List (String × PValue)) :=
  msgs.map payloadMessage

/-! ## Hash embedder (`memory/embedder.py`, `HashEmbedder.embed`)

`HashEmbedder.embed` lowercases and strips the text, hashes the UTF-8 bytes
with MD5 and SHA-256 (`hashlib`), concatenates the digests, expands them
cyclically to the target dimension, maps each byte `b` to `b / 127.5 - 1.0`,
and L2-normalizes.  The two standard digest algorithms, which the source
takes from the Python standard library, are implemented here over byte lists
(32-bit words are naturals reduced mod `2^32`).  The float arithmetic of the
final expansion is exact rational arithmetic in the source's range, and the
L2 normalization is carried out over `ℝ`. -/

def chunks64 : List ℕ → List (List ℕ)
  | [] => []
  | b :: rest => ((b :: rest).take 64) :: chunks64 ((b :: rest).drop 64)
termination_by l => l.length
decreasing_by simp [List.length_drop]; omega

/-- Bitwise complement of a 32-bit word (valid for `x < 2^32`). -/
def not32 (x : ℕ) : ℕ := 4294967295 - x

/-- Left rotation of a 32-bit word (valid for `x < 2^32`, `n ≤ 32`). -/
def rotl32 (x n : ℕ) : ℕ := Nat.lor ((x <<< n) % 4294967296) (x >>> (32 - n))

/-- Right rotation of a 32-bit word (valid for `x < 2^32`, `n ≤ 32`). -/
def rotr32 (x n : ℕ) : ℕ := Nat.lor (x >>> n) ((x <<< (32 - n)) % 4294967296)

/-- Serialize a 32-bit word to 4 bytes, little-endian. -/
def word32LE (w : ℕ) : List ℕ := [w % 256, w / 256 % 256, w / 65536 % 256, w / 16777216 % 256]

/-- Serialize a 32-bit word to 4 bytes, big-endian. -/
def word32BE (w : ℕ) : List ℕ := [w / 16777216 % 256, w / 65536 % 256, w / 256 % 256, w % 256]

/-- Serialize a 64-bit length field to 8 bytes, little-endian (MD5). -/
def word64LE (n : ℕ) : List ℕ := (List.range 8).map (fun i => n / 256 ^ i % 256)

/-- Serialize a 64-bit length field to 8 bytes, big-endian (SHA-256). -/
def word64BE (n : ℕ) : List ℕ := (List.range 8).map (fun i => n / 256 ^ (7 - i) % 256)

/-- Read 4 bytes as a little-endian 32-bit word. -/
def bytesToWordLE (bs : List ℕ) : ℕ := bs.foldr (fun b acc => b + 256 * acc) 0

/-- Read 4 bytes as a big-endian 32-bit word. -/
def bytesToWordBE (bs : List ℕ) : ℕ := bs.foldl (fun acc b => acc * 256 + b) 0

/-- Merkle–Damgård padding shared by MD5 and SHA-256: a `0x80` byte, zeros to
56 mod 64, then the bit length in 8 bytes. -/
def padTail (len : ℕ) (lenBytes : List ℕ) : List ℕ :=
  [128] ++ List.replicate ((120 - (len + 1) % 64) % 64) 0 ++ lenBytes

def md5F (b c d : ℕ) : ℕ := Nat.lor (Nat.land b c) (Nat.land (not32 b) d)

def md5G (b c d : ℕ) : ℕ := Nat.lor (Nat.land d b) (Nat.land (not32 d) c)

def md5H (b c d : ℕ) : ℕ := Nat.xor b (Nat.xor c d)

def md5I (b c d : ℕ) : ℕ := Nat.xor c (Nat.lor b (not32 d))

def md5K : List ℕ :=
  [3614090360, 3905402710, 606105819, 3250441966,
   4118548399, 1200080426, 2821735955, 4249261313,
   1770035416, 2336552879, 4294925233, 2304563134,
   1804603682, 4254626195, 2792965006, 1236535329,
   4129170786, 3225465664, 643717713, 3921069994,
   3593408605, 38016083, 3634488961, 3889429448,
   568446438, 3275163606, 4107603335, 1163531501,
   2850285829, 4243563512, 1735328473, 2368359562,
   4294588738, 2272392833, 1839030562, 4259657740,
   2763975236, 1272893353, 4139469664, 3200236656,
   681279174, 3936430074, 3572445317, 76029189,
   3654602809, 3873151461, 530742520, 3299628645,
   4096336452, 1126891415, 2878612391, 4237533241,
   1700485571, 2399980690, 4293915773, 2240044497,
   1873313359, 4264355552, 2734768916, 1309151649,
   4149444226, 3174756917, 718787259, 3951481745]

def md5S : List ℕ :=
  [7, 12, 17, 22, 7, 12, 17, 22, 7, 12, 17, 22, 7, 12, 17, 22,
   5, 9, 14, 20, 5, 9, 14, 20, 5, 9, 14, 20, 5, 9, 14, 20,
   4, 11, 16, 23, 4, 11, 16, 23, 4, 11, 16, 23, 4, 11, 16, 23,
   6, 10, 15, 21, 6, 10, 15, 21, 6, 10, 15, 21, 6, 10, 15, 21]

def md5Mix (i b c d : ℕ) : ℕ :=
  if i < 16 then md5F b c d
  else if i < 32 then md5G b c d
  else if i < 48 then md5H b c d
  else md5I b c d

def md5MsgIndex (i : ℕ) : ℕ :=
  if i < 16 then i
  else if i < 32 then (5 * i + 1) % 16
  else if i < 48 then (3 * i + 5) % 16
  else 7 * i % 16

def md5Round (M : List ℕ) (st : ℕ × ℕ × ℕ × ℕ) (i : ℕ) : ℕ × ℕ × ℕ × ℕ :=
  let (a, b, c, d) := st
  let tmp := (a + md5Mix i b c d + md5K.getD i 0 + M.getD (md5MsgIndex i) 0) % 4294967296
  (d, (b + rotl32 tmp (md5S.getD i 0)) % 4294967296, b, c)

def md5Chunk (st : ℕ × ℕ × ℕ × ℕ) (chunk : List ℕ) : ℕ × ℕ × ℕ × ℕ :=
  let M := (List.range 16).map (fun j => bytesToWordLE ((chunk.drop (4 * j)).take 4))
  let r := (List.range 64).foldl (md5Round M) st
  ((st.1 + r.1) % 4294967296, (st.2.1 + r.2.1) % 4294967296,
   (st.2.2.1 + r.2.2.1) % 4294967296, (st.2.2.2 + r.2.2.2) % 4294967296)

/-- The MD5 digest (16 bytes) of a byte string. -/
def md5Bytes (msg : List ℕ) : List ℕ :=
  let padded := msg ++ padTail msg.length (word64LE (8 * msg.length % 2 ^ 64))
  let r := (chunks64 padded).foldl md5Chunk (1732584193, 4023233417, 2562383102, 271733878)
  word32LE r.1 ++ word32LE r.2.1 ++ word32LE r.2.2.1 ++ word32LE r.2.2.2

def shaCh (e f g : ℕ) : ℕ := Nat.xor (Nat.land e f) (Nat.land (not32 e) g)

def shaMaj (a b c : ℕ) : ℕ := Nat.xor (Nat.land a b) (Nat.xor (Nat.land a c) (Nat.land b c))

def ssig0 (x : ℕ) : ℕ := Nat.xor (rotr32 x 7) (Nat.xor (rotr32 x 18) (x >>> 3))

def ssig1 (x : ℕ) : ℕ := Nat.xor (rotr32 x 17) (Nat.xor (rotr32 x 19) (x >>> 10))

def bsig0 (x : ℕ) : ℕ := Nat.xor (rotr32 x 2) (Nat.xor (rotr32 x 13) (rotr32 x 22))

def bsig1 (x : ℕ) : ℕ := Nat.xor (rotr32 x 6) (Nat.xor (rotr32 x 11) (rotr32 x 25))

def sha256K : List ℕ :=
  [1116352408, 1899447441, 3049323471, 3921009573,
   961987163, 1508970993, 2453635748, 2870763221,
   3624381080, 310598401, 607225278, 1426881987,
   1925078388, 2162078206, 2614888103, 3248222580,
   3835390401, 4022224774, 264347078, 604807628,
   770255983, 1249150122, 1555081692, 1996064986,
   2554220882, 2821834349, 2952996808, 3210313671,
   3336571891, 3584528711, 113926993, 338241895,
   666307205, 773529912, 1294757372, 1396182291,
   1695183700, 1986661051, 2177026350, 2456956037,
   2730485921, 2820302411, 3259730800, 3345764771,
   3516065817, 3600352804, 4094571909, 275423344,
   430227734, 506948616, 659060556, 883997877,
   958139571, 1322822218, 1537002063, 1747873779,
   1955562222, 2024104815, 2227730452, 2361852424,
   2428436474, 2756734187, 3204031479, 3329325298]

structure Sha256State where
  a : ℕ
  b : ℕ
  c : ℕ
  d : ℕ
  e : ℕ
  f : ℕ
  g : ℕ
  hh : ℕ
deriving DecidableEq, Repr

def sha256Init : Sha256State :=
  ⟨1779033703, 3144134277, 1013904242, 2773480762,
   1359893119, 2600822924, 528734635, 1541459225⟩

/-- One extension step of the SHA-256 message schedule. -/
def shaExtend (ws : List ℕ) : List ℕ :=
  ws ++ [(ws.getD (ws.length - 16) 0 + ssig0 (ws.getD (ws.length - 15) 0) +
          ws.getD (ws.length - 7) 0 + ssig1 (ws.getD (ws.length - 2) 0)) % 4294967296]

/-- The 64-word message schedule of a 64-byte chunk. -/
def shaSchedule (chunk : List ℕ) : List ℕ :=
  shaExtend^[48] ((List.range 16).map (fun j => bytesToWordBE ((chunk.drop (4 * j)).take 4)))

def shaRound (w : List ℕ) (st : Sha256State) (i : ℕ) : Sha256State :=
  let t1 := (st.hh + bsig1 st.e + shaCh st.e st.f st.g +
             sha256K.getD i 0 + w.getD i 0) % 4294967296
  let t2 := (bsig0 st.a + shaMaj st.a st.b st.c) % 4294967296
  { a := (t1 + t2) % 4294967296, b := st.a, c := st.b, d := st.c,
    e := (st.d + t1) % 4294967296, f := st.e, g := st.f, hh := st.g }

def sha256Chunk (st : Sha256State) (chunk : List ℕ) : Sha256State :=
  let r := (List.range 64).foldl (shaRound (shaSchedule chunk)) st
  { a := (st.a + r.a) % 4294967296, b := (st.b + r.b) % 4294967296,
    c := (st.c + r.c) % 4294967296, d := (st.d + r.d) % 4294967296,
    e := (st.e + r.e) % 4294967296, f := (st.f + r.f) % 4294967296,
    g := (st.g + r.g) % 4294967296, hh := (st.hh + r.hh) % 4294967296 }

/-- The SHA-256 digest (32 bytes) of a byte string. -/
def sha256Bytes (msg : List ℕ) : List ℕ :=
  let padded := msg ++ padTail msg.length (word64BE (8 * msg.length % 2 ^ 64))
  let r := (chunks64 padded).foldl sha256Chunk sha256Init
  word32BE r.a ++ word32BE r.b ++ word32BE r.c ++ word32BE r.d ++
  word32BE r.e ++ word32BE r.f ++ word32BE r.g ++ word32BE r.hh

/-- The UTF-8 bytes of a string (`text.encode()`). -/
def utf8Bytes (s : String) : List ℕ := s.toUTF8.toList.map (fun b => b.toNat)

/-- Model of Python `str.strip()` on the character list: drop whitespace from
both ends. -/
def trimChars (cs : List Char) : List Char :=
  ((cs.dropWhile Char.isWhitespace).reverse.dropWhile Char.isWhitespace).reverse

/-- Model of `text.lower().strip()`, the normalization `HashEmbedder.embed`
applies before hashing. -/
def pyNormalize (t : String) : String :=
  String.mk (trimChars (t.data.map Char.toLower))

/-- Concatenation `md5_hash + sha256_hash`: the 48-byte combined digest of the normalized
text. -/
def combinedDigest (t : String) : List ℕ :=
  md5Bytes (utf8Bytes (pyNormalize t)) ++ sha256Bytes (utf8Bytes (pyNormalize t))

/-- The byte-to-coordinate map `(byte_val / 127.5) - 1.0` (exact in floats for
integer bytes; `127.5 = 255/2`). -/
def byteToCoord (b : ℕ) : ℚ := (b : ℚ) / (255 / 2) - 1

/-- The pre-normalization embedding vector: the combined digest expanded
cyclically to the target dimension and mapped into `[-1, 1]`. -/
def hashVector (dim : ℕ) (t : String) : List ℚ :=
  let combined := combinedDigest t
  (List.range dim).map (fun i => byteToCoord (combined.getD (i % combined.length) 0))

/-- The sum of squares of a rational vector. -/
def sumSq (v : List ℚ) : ℚ := (v.map (fun x => x * x)).sum

/-- The L2 normalization step of `HashEmbedder.embed` (`if norm > 0`), over
the reals. -/
noncomputable def l2NormalizeR (v : List ℚ) : List ℝ :=
  let norm : ℝ := Real.sqrt ((sumSq v : ℚ) : ℝ)
  if 0 < norm then v.map (fun x : ℚ => ((x : ℝ)) / norm)
  else v.map (fun x : ℚ => ((x : ℝ)))

/-- Model of `HashEmbedder.embed` for an embedder of dimension `dim`. -/
noncomputable def embed (dim : ℕ) (t : String) : List ℝ :=
  l2NormalizeR (hashVector dim t)

/-! ## Concrete instances used by evaluations and witnesses -/

/-- A request carrying `tools` (and a tool-bearing message) but no user-role
message at all. -/
def reqToolsNoUser : ChatRequest :=
  { model := "gpt-4"
    messages := [{ role := "assistant", content := some "hi", tool_calls := [()] }]
    tools := [()] }

/-- A message whose content is the literal word `function`, with empty
`tool_calls` and no `tool_call_id`. -/
def msgFunctionWord : Message := { role := "assistant", content := some "function" }

/-- Four messages — a system head, a flagged middle (its content contains the
tool marker `function`, so `sanitize` marks it preserved), and two tail
messages — with the default config's `preserve_last_n = 2`. -/
def reqAllFlagged : ChatRequest :=
  { model := "m"
    messages := [{ role := "system", content := some "s" },
                 { role := "user", content := some "function" },
                 { role := "assistant", content := some "b" },
                 { role := "user", content := some "c" }] }

/-- A one-message request for witnesses. -/
def reqSingle : ChatRequest :=
  { model := "m", messages := [{ role := "user", content := some "hello" }] }

/-- A disabled provider. -/
def provDisabled : LLMProvider :=
  { id := "a", name := "A", base_url := "u", enabled := false }

/-- A registry whose only provider — also the default — is disabled, and lists
no models. -/
def regDisabledDefault : ProviderRegistry :=
  { providers := [provDisabled], default := some "a" }

/-- The `kimi` template provider (enabled, with its models list). -/
def provKimi : LLMProvider :=
  { id := "kimi", name := "Kimi (Moonshot)", base_url := "https://api.moonshot.cn/v1"
    default_model := "moonshot-v1-8k"
    models := ["moonshot-v1-8k", "moonshot-v1-32k", "moonshot-v1-128k"] }

/-- A registry with an `openai` default and the `kimi` provider. -/
def regKimiExample : ProviderRegistry :=
  { providers := [{ id := "openai", name := "OpenAI", base_url := "https://api.openai.com/v1" },
                  provKimi]
    default := some "openai" }

/-- A search result carrying a similarity of `0.2` — below the default
threshold `0.5` — and no distance field. -/
def resLowSimilarity : SearchResult :=
  { id := "1", text := "t", similarity := some (1/5) }

/-- An outcome sequence in which the upstream answers 404 on every attempt. -/
def allNotFound : ℕ → Outcome := fun _ => Outcome.httpError 404

/-- A message with both tool fields populated, for the payload witness. -/
def msgWithToolFields : Message :=
  { role := "assistant", content := some "c", name := some "n"
    tool_calls := [()], tool_call_id := some "call-1" }

/-- An open-state breaker whose last failure was at time 0. -/
def openBreakerAt0 : CBState := { state := CircuitState.opened, last_failure_time := 0 }

/-- A half-open breaker with fresh counters. -/
def halfOpenBreaker : CBState := { state := CircuitState.halfOpen }

/-- The string of `n` letters `a`; its normalization is itself, and the map is
injective — the strings used for the hash collision argument. -/
def repA (n : ℕ) : String := String.mk (List.replicate n 'a')

/-! ## C1 — classifier priority for tool requests

The specification (and the source's own `highest priority` comment) put the
tool-use check first, but `RuleBasedClassifier.classify` returns `UNKNOWN`
for a missing or empty last user message before ever looking at `tools`. -/

/-- Claim C1 fails on the code: `reqToolsNoUser` has `tools` present and a
tool-bearing message, yet — having no user-role message — it classifies as
`unknown`, not `tool_use`.  This contradicts the source's own comment that
the tool-use check has highest priority. -/
theorem classifier_tool_priority_bug :
    classify reqToolsNoUser = Intent.unknown ∧
    reqToolsNoUser.tools ≠ [] ∧ hasToolIndicators reqToolsNoUser = true := by
  decide

/-! ## C4 — message flags -/

/-- Claim C4's characterization of `has_tool_call` is false at
`msgFunctionWord`: its `tool_calls` list is empty and `tool_call_id` unset,
yet the flag is true, because the content contains the literal marker
`function`. -/
theorem message_flags_claim_cex :
    ¬ ((analyzeMessage msgFunctionWord).has_tool_call = true ↔
        (msgFunctionWord.tool_calls ≠ [] ∨ pyTruthy msgFunctionWord.tool_call_id = true)) := by
  decide

/-- Claim C4 amended: `has_tool_call` holds iff `tool_calls` or
`tool_call_id` is truthy or the content contains one of the literal markers
`tool_calls`, `tool_call_id`, `function`; and `should_preserve` holds iff
`has_tool_call` holds or the message has a code block and more than 500
characters of content. -/
theorem message_flags_spec (m : Message) :
    ((analyzeMessage m).has_tool_call = true ↔
      (m.tool_calls ≠ [] ∨ pyTruthy m.tool_call_id = true ∨
       ∃ marker ∈ TOOL_MARKERS, pyStrContains (m.content.getD "") marker = true)) ∧
    ((analyzeMessage m).should_preserve = true ↔
      ((analyzeMessage m).has_tool_call = true ∨
       ((analyzeMessage m).has_code_block = true ∧ 500 < (m.content.getD "").length))) := by
  constructor
  · simp only [analyzeMessage, Bool.or_eq_true, Bool.not_eq_true', List.isEmpty_eq_false,
      List.any_eq_true, ne_eq]
    tauto
  · simp [analyzeMessage, Nat.lt_iff_add_one_le]

/-! ## C6 — retriever threshold filter -/

/-- Claim C6 fails on the code: a result whose similarity `0.2` is below the
threshold `0.5` and which carries no distance field is nevertheless returned,
because the missing `distance` defaults to `0`, which passes
`distance <= 1 - threshold`. -/
theorem retrieve_filter_claim_cex :
    resLowSimilarity ∈ retrieveFiltered (1/2) [resLowSimilarity] ∧
    resLowSimilarity.similarity.getD 1 < 1/2 ∧ resLowSimilarity.distance = none := by
  refine ⟨?_, by norm_num [resLowSimilarity], rfl⟩
  norm_num [retrieveFiltered, passesThreshold, resLowSimilarity]

/-- Claim C6 amended: `retrieve` keeps exactly the results `r` with
`r.get("similarity", 1.0) ≥ threshold` or `r.get("distance", 0) ≤ 1 −
threshold`; in particular a result with a below-threshold similarity and no
distance field is kept, since the defaulted distance `0` passes. -/
theorem retrieve_filter_spec (threshold : ℚ) (results : List SearchResult) (r : SearchResult) :
    r ∈ retrieveFiltered threshold results ↔
      (r ∈ results ∧
       (threshold ≤ r.similarity.getD 1 ∨ r.distance.getD 0 ≤ 1 - threshold)) := by
  simp [retrieveFiltered, passesThreshold, List.mem_filter]

/-! ## C7 — forward client retry policy -/

/-- Claim C7 fails on the code: a 4xx response is retried — three attempts
are made against an upstream that always answers 404, where the claim
requires the 4xx to be surfaced without retry (a single attempt). -/
theorem forward_retry_claim_cex :
    forwardAttempts allNotFound = 3 ∧ ¬ forwardAttempts allNotFound = 1 := by
  decide

/-- Claim C7 amended: `forward` makes at most 3 attempts in total —
tenacity's `stop_after_attempt(3)`, independent of `provider.max_retries` —
and retries exactly the attempts that raised, which are the transport errors
and every HTTP status ≥ 400, the 4xx statuses included. -/
theorem forward_retry_spec (f : ℕ → Outcome) :
    forwardAttempts f ≤ 3 ∧
    (forwardAttempts f = 1 ↔ raisesError (f 0) = false) ∧
    (forwardAttempts f = 2 ↔ raisesError (f 0) = true ∧ raisesError (f 1) = false) ∧
    (forwardAttempts f = 3 ↔ raisesError (f 0) = true ∧ raisesError (f 1) = true) := by
  unfold forwardAttempts
  cases h0 : raisesError (f 0) <;> cases h1 : raisesError (f 1) <;> simp [h0, h1]

/-! ## C10 — forwarded payload shape -/

/-- Claim C10: every message dict `_to_payload` builds — in particular for
the assembler's output, tool-use passthrough included — has exactly the keys
`role`, `content`, and (when `name` is truthy) `name`; the `tool_calls` and
`tool_call_id` fields never appear. -/
theorem payload_excludes_tool_fields (msgs : List Message) (pm : List (String × PValue))
    (hm : pm ∈ toPayloadMessages msgs) :
    (pm.map Prod.fst = ["role", "content"] ∨ pm.map Prod.fst = ["role", "content", "name"]) ∧
    "tool_calls" ∉ pm.map Prod.fst ∧ "tool_call_id" ∉ pm.map Prod.fst := by
  simp only [toPayloadMessages, List.mem_map] at hm
  obtain ⟨m, -, rfl⟩ := hm
  by_cases hn : pyTruthy m.name = true <;> simp [payloadMessage, hn]

/-- Witness for C10 at a message that does carry tool fields: its payload
keys are exactly `role`, `content`, `name`. -/
theorem payload_excludes_tool_fields_witness :
    ((payloadMessage msgWithToolFields).map Prod.fst = ["role", "content"] ∨
     (payloadMessage msgWithToolFields).map Prod.fst = ["role", "content", "name"]) ∧
    "tool_calls" ∉ (payloadMessage msgWithToolFields).map Prod.fst ∧
    "tool_call_id" ∉ (payloadMessage msgWithToolFields).map Prod.fst :=
  payload_excludes_tool_fields [msgWithToolFields] (payloadMessage msgWithToolFields)
    (by simp [toPayloadMessages])

/-! ## C5 — model-to-provider resolution -/

/-- Claim C5 fails on the code in its default branch: with no prefix match
and no provider listing the model, `get_provider_for_model` returns the
default provider even when it is disabled — `get_provider` never checks
`enabled`. -/
theorem get_for_model_claim_cex :
    colonHit regDisabledDefault "m" = none ∧
    firstListed regDisabledDefault "m" = none ∧
    getProviderForModel regDisabledDefault "m" = some provDisabled ∧
    provDisabled.enabled = false := by
  decide

/-- Claim C5 amended: a registered, enabled provider named by the model's
prefix part wins (regardless of its models list); otherwise the first
enabled provider, in insertion order, whose `models` list contains the model
string; otherwise the default provider whenever one is set and registered —
enabled or not (`none` only when there is no usable default). -/
theorem get_for_model_resolution (reg : ProviderRegistry) (m : String) :
    (∀ p, hasColon m = true → dictGet reg (beforeColon m) = some p → p.enabled = true →
      getProviderForModel reg m = some p) ∧
    (colonHit reg m = none → ∀ p, firstListed reg m = some p →
      getProviderForModel reg m = some p) ∧
    (colonHit reg m = none → firstListed reg m = none →
      getProviderForModel reg m = defaultLookup reg) := by
  refine ⟨?_, ?_, ?_⟩
  · intro p hc hd he
    simp [getProviderForModel, colonHit, hc, hd, he]
  · intro hch p hf
    simp [getProviderForModel, hch, hf]
  · intro hch hf
    simp [getProviderForModel, hch, hf]

/-- Witness for C5 at the `kimi` example: the prefix of `kimi:zzz` names the
enabled `kimi` provider, so it is resolved to it although `zzz` is not one
of its models. -/
theorem get_for_model_resolution_witness :
    (hasColon "kimi:zzz" = true ∧
     dictGet regKimiExample (beforeColon "kimi:zzz") = some provKimi ∧
     provKimi.enabled = true) ∧
    getProviderForModel regKimiExample "kimi:zzz" = some provKimi :=
  ⟨⟨by decide, by decide, by decide⟩,
   (get_for_model_resolution regKimiExample "kimi:zzz").1 provKimi
     (by decide) (by decide) (by decide)⟩

/-! ## C3 — circuit breaker state machine -/

/-- State transitions always land in the requested state. -/
theorem transitionTo_state_eq (s : CBState) (new : CircuitState) :
    (transitionTo s new).state = new := by
  unfold transitionTo
  split
  · assumption
  · cases new <;> rfl

/-- Once open, further failures keep the breaker open. -/
theorem recordFailure_state_opened (cfg : CBConfig) (t : ℚ) (s : CBState)
    (h : s.state = CircuitState.opened) :
    (recordFailure cfg t s).state = CircuitState.opened := by
  unfold recordFailure
  simp [h]

/-- Once open, any sequence of further failures keeps the breaker open. -/
theorem failSeq_state_opened (cfg : CBConfig) (ts : List ℚ) :
    ∀ s : CBState, s.state = CircuitState.opened →
      (failSeq cfg ts s).state = CircuitState.opened := by
  induction ts with
  | nil => intro s h; simpa [failSeq] using h
  | cons t ts ih =>
    intro s h
    simp only [failSeq, List.foldl_cons] at ih ⊢
    exact ih _ (recordFailure_state_opened cfg t s h)

/-- From a closed breaker, enough consecutive failures to reach the threshold
open it. -/
theorem failSeq_opens (cfg : CBConfig) :
    ∀ (ts : List ℚ) (s : CBState), s.state = CircuitState.closed →
      s.failure_count + ts.length = cfg.failure_threshold → 1 ≤ ts.length →
      (failSeq cfg ts s).state = CircuitState.opened := by
  intro ts
  induction ts with
  | nil => intro s _ _ h; exact absurd h (by simp)
  | cons t ts ih =>
    intro s hc hcount _
    simp only [failSeq, List.foldl_cons] at ih ⊢
    by_cases hth : cfg.failure_threshold ≤ s.failure_count + 1
    · have h1 : (recordFailure cfg t s).state = CircuitState.opened := by
        unfold recordFailure
        simp [hc, hth, transitionTo_state_eq]
      have := failSeq_state_opened cfg ts _ h1
      simpa [failSeq] using this
    · have h1 : (recordFailure cfg t s).state = CircuitState.closed ∧
          (recordFailure cfg t s).failure_count = s.failure_count + 1 := by
        unfold recordFailure
        simp [hc, hth]
      apply ih _ h1.1
      · rw [h1.2]
        simp only [List.length_cons] at hcount
        omega
      · simp only [List.length_cons] at hcount
        omega

/-- From half-open with counters freshly zeroed, enough successes to reach
the success threshold close the breaker. -/
theorem succIter_closes (cfg : CBConfig) :
    ∀ (k : ℕ) (s : CBState), s.state = CircuitState.halfOpen →
      s.success_count + k = cfg.success_threshold → 1 ≤ k →
      ((recordSuccess cfg)^[k] s).state = CircuitState.closed := by
  intro k
  induction k with
  | zero => intro s _ _ h; exact absurd h (by simp)
  | succ k ih =>
    intro s hh hcount _
    rw [Function.iterate_succ_apply]
    by_cases hth : cfg.success_threshold ≤ s.success_count + 1
    · have hk : k = 0 := by omega
      subst hk
      rw [Function.iterate_zero_apply]
      unfold recordSuccess
      simp [hh, hth, transitionTo_state_eq]
    · have h1 : (recordSuccess cfg s).state = CircuitState.halfOpen ∧
          (recordSuccess cfg s).success_count = s.success_count + 1 := by
        unfold recordSuccess
        simp [hh, hth]
      exact ih _ h1.1 (by omega) (by omega)

/-- Claim C3: from a fresh closed breaker, `failure_threshold` consecutive
`record_failure` calls open it; while open, `can_execute` is false (and the
state unchanged) whenever `now − last_failure_time < recovery_timeout`; once
`now − last_failure_time ≥ recovery_timeout`, `can_execute` returns true and
moves the breaker to half-open; from half-open, any single `record_failure`
reopens it, and — starting from the freshly-zeroed success counter —
`success_threshold` `record_success` calls close it. -/
theorem circuit_breaker_contract :
    (∀ (cfg : CBConfig) (ts : List ℚ), 1 ≤ cfg.failure_threshold →
      ts.length = cfg.failure_threshold →
      (failSeq cfg ts initialCBState).state = CircuitState.opened) ∧
    (∀ (cfg : CBConfig) (now : ℚ) (s : CBState), s.state = CircuitState.opened →
      now - s.last_failure_time < cfg.recovery_timeout →
      canExecute cfg now s = (false, s)) ∧
    (∀ (cfg : CBConfig) (now : ℚ) (s : CBState), s.state = CircuitState.opened →
      cfg.recovery_timeout ≤ now - s.last_failure_time →
      (canExecute cfg now s).1 = true ∧
      (canExecute cfg now s).2.state = CircuitState.halfOpen ∧
      (canExecute cfg now s).2.success_count = 0) ∧
    (∀ (cfg : CBConfig) (now : ℚ) (s : CBState), s.state = CircuitState.halfOpen →
      (recordFailure cfg now s).state = CircuitState.opened) ∧
    (∀ (cfg : CBConfig) (k : ℕ) (s : CBState), s.state = CircuitState.halfOpen →
      s.success_count = 0 → k = cfg.success_threshold → 1 ≤ k →
      ((recordSuccess cfg)^[k] s).state = CircuitState.closed) := by
  refine ⟨?_, ?_, ?_, ?_, ?_⟩
  · intro cfg ts h1 hlen
    exact failSeq_opens cfg ts initialCBState rfl (by simpa [initialCBState] using hlen) (by omega)
  · intro cfg now s hst hlt
    have hnot : ¬ cfg.recovery_timeout ≤ now - s.last_failure_time := not_le.mpr hlt
    simp [canExecute, hst, hnot]
  · intro cfg now s hst hge
    have hne : s.state ≠ CircuitState.halfOpen := by simp [hst]
    refine ⟨?_, ?_, ?_⟩
    · simp [canExecute, hst, hge]
    · simp [canExecute, hst, hge, transitionTo_state_eq]
    · simp only [canExecute, hst, hge, if_pos]
      unfold transitionTo
      rw [if_neg hne]
  · intro cfg now s hst
    unfold recordFailure
    simp [hst, transitionTo_state_eq]
  · intro cfg k s hst hsc hk h1
    exact succIter_closes cfg k s hst (by omega) h1

/-- Witness for C3 with the default configuration (threshold 5, recovery
timeout 60 s, success threshold 2): five failures open a fresh breaker; at 30 s
the open breaker refuses; at 60 s it half-opens with a zeroed success count; a
half-open failure reopens; two half-open successes close. -/
theorem circuit_breaker_contract_witness :
    (failSeq {} [0, 1, 2, 3, 4] initialCBState).state = CircuitState.opened ∧
    canExecute {} 30 openBreakerAt0 = (false, openBreakerAt0) ∧
    ((canExecute {} 60 openBreakerAt0).1 = true ∧
     (canExecute {} 60 openBreakerAt0).2.state = CircuitState.halfOpen ∧
     (canExecute {} 60 openBreakerAt0).2.success_count = 0) ∧
    (recordFailure {} 99 halfOpenBreaker).state = CircuitState.opened ∧
    ((recordSuccess {})^[2] halfOpenBreaker).state = CircuitState.closed :=
  ⟨circuit_breaker_contract.1 {} [0, 1, 2, 3, 4] (by decide) rfl,
   circuit_breaker_contract.2.1 {} 30 openBreakerAt0 rfl (by norm_num [openBreakerAt0]),
   circuit_breaker_contract.2.2.1 {} 60 openBreakerAt0 rfl (by norm_num [openBreakerAt0]),
   circuit_breaker_contract.2.2.2.1 {} 99 halfOpenBreaker rfl,
   circuit_breaker_contract.2.2.2.2 {} 2 halfOpenBreaker rfl rfl rfl (by decide)⟩

/-! ## Sliding-window lemmas shared by C2 and C8 -/

/-- Dropping strictly less than the length preserves the last element. -/
theorem getLast?_drop_of_lt {α : Type} (l : List α) (n : ℕ) (h : n < l.length) :
    (l.drop n).getLast? = l.getLast? := by
  rw [List.getLast?_drop, if_neg (by omega)]

/-- The scaled window parameters stay positive. -/
theorem scaled_pos {n : ℕ} (mult15 : Bool) (h : 1 ≤ n) : 1 ≤ scaled n mult15 := by
  unfold scaled
  split <;> omega

/-- The scaled message cap stays at least 2. -/
theorem scaled_two_le {n : ℕ} (mult15 : Bool) (h : 2 ≤ n) : 2 ≤ scaled n mult15 := by
  unfold scaled
  split <;> omega

/-- The system head holds at most one message. -/
theorem sysHead_length_le (msgs : List Message) : (sysHead msgs).length ≤ 1 := by
  unfold sysHead
  cases msgs with
  | nil => simp
  | cons m t => dsimp only; split <;> simp

/-- The flagged middle holds at most the `recent_start - 1` middle slots. -/
theorem midFlagged_length_le (msgs : List Message) (flags : ℕ → Bool) (rs : ℕ) :
    (midFlagged msgs flags rs).length ≤ rs - 1 := by
  simp only [midFlagged, List.length_map]
  calc (List.filter flags (List.range' 1 (rs - 1))).length
      ≤ (List.range' 1 (rs - 1)).length := List.length_filter_le _ _
    _ = rs - 1 := List.length_range' _ _ _

/-- The flagged middle is full exactly when every middle index is flagged. -/
theorem midFlagged_length_eq_iff (msgs : List Message) (flags : ℕ → Bool) (rs : ℕ) :
    (midFlagged msgs flags rs).length = rs - 1 ↔
      ∀ i ∈ List.range' 1 (rs - 1), flags i = true := by
  have h := List.filter_length_eq_length (p := flags) (l := List.range' 1 (rs - 1))
  rw [List.length_range'] at h
  simpa [midFlagged] using h

/-- In the long-history branch, the recent tail starts strictly inside the
list. -/
theorem recentStart_lt (cfg : AssemblyConfig) (len : ℕ) (mult15 : Bool)
    (hn : 1 ≤ cfg.preserve_last_n) (h2 : 2 ≤ len) :
    recentStart cfg len mult15 < len := by
  have := scaled_pos mult15 hn
  unfold recentStart
  omega

/-- Python's `l[-k:]` for a positive `k` is `drop (length - k)`. -/
theorem pyLastSlice_pos {α : Type} (l : List α) (k : Int) (hk : 1 ≤ k) :
    pyLastSlice l k = l.drop (l.length - k.toNat) := by
  unfold pyLastSlice pySliceFrom
  rw [if_pos (by omega)]
  congr 1
  omega

/-- Truncation keeps exactly `max_msgs` messages when it fires (for a cap of
at least 2). -/
theorem truncateWindow_length (msgs : List Message) (maxMsgs : ℕ)
    (h2 : 2 ≤ maxMsgs) (hlen : maxMsgs < msgs.length) :
    (truncateWindow msgs maxMsgs).length = maxMsgs := by
  unfold truncateWindow
  cases msgs with
  | nil => simp at hlen
  | cons m t =>
    simp only [List.length_cons] at hlen
    dsimp only
    split
    · simp only [List.length_singleton, Nat.cast_one]
      have hk : ((maxMsgs : Int) - 1).toNat = maxMsgs - 1 := by omega
      rw [List.length_append, List.length_singleton, pyLastSlice_pos _ _ (by omega), hk,
          List.length_drop]
      simp only [List.length_cons]
      omega
    · simp only [List.length_nil, Nat.cast_zero, sub_zero, List.nil_append]
      have hk : ((maxMsgs : Int)).toNat = maxMsgs := by omega
      rw [pyLastSlice_pos _ _ (by omega), hk, List.length_drop]
      simp only [List.length_cons]
      omega

/-- Truncation keeps the last message when it fires. -/
theorem truncateWindow_getLast? (msgs : List Message) (maxMsgs : ℕ)
    (h2 : 2 ≤ maxMsgs) (hlen : maxMsgs < msgs.length) :
    (truncateWindow msgs maxMsgs).getLast? = msgs.getLast? := by
  unfold truncateWindow
  cases msgs with
  | nil => simp at hlen
  | cons m t =>
    simp only [List.length_cons] at hlen
    dsimp only
    split
    · simp only [List.length_singleton, Nat.cast_one]
      have hk : ((maxMsgs : Int) - 1).toNat = maxMsgs - 1 := by omega
      rw [pyLastSlice_pos _ _ (by omega), hk]
      have hd : (m :: t).length - (maxMsgs - 1) < (m :: t).length := by
        simp only [List.length_cons]
        omega
      have hne : (m :: t).drop ((m :: t).length - (maxMsgs - 1)) ≠ [] := by
        rw [ne_eq, List.drop_eq_nil_iff]
        simp only [List.length_cons]
        omega
      rw [List.getLast?_append_of_ne_nil _ hne, getLast?_drop_of_lt _ _ hd]
    · simp only [List.length_nil, Nat.cast_zero, sub_zero, List.nil_append]
      have hk : ((maxMsgs : Int)).toNat = maxMsgs := by omega
      rw [pyLastSlice_pos _ _ (by omega), hk]
      have hd : (m :: t).length - maxMsgs < (m :: t).length := by
        simp only [List.length_cons]
        omega
      rw [getLast?_drop_of_lt _ _ hd]

/-- The preserved list ends with the original last message whenever the
recent tail is non-empty. -/
theorem preservedList_getLast? (cfg : AssemblyConfig) (msgs : List Message)
    (flags : ℕ → Bool) (mult15 : Bool)
    (hrs : recentStart cfg msgs.length mult15 < msgs.length) :
    (preservedList cfg msgs flags mult15).getLast? = msgs.getLast? := by
  unfold preservedList
  have hdne : msgs.drop (recentStart cfg msgs.length mult15) ≠ [] := by
    rw [ne_eq, List.drop_eq_nil_iff]
    omega
  rw [List.append_assoc, List.getLast?_append_of_ne_nil _ (by simp [hdne]),
      List.getLast?_append_of_ne_nil _ hdne, getLast?_drop_of_lt _ _ hrs]

/-- The filtered window never grows and ends with the original last message. -/
theorem slidingApply_getLast? (cfg : AssemblyConfig) (msgs : List Message)
    (flags : ℕ → Bool) (mult15 : Bool)
    (hn : 1 ≤ cfg.preserve_last_n) (hM : 2 ≤ cfg.max_messages) :
    (slidingApply cfg msgs flags mult15).getLast? = msgs.getLast? := by
  unfold slidingApply
  split
  · rfl
  · rename_i hlong
    push_neg at hlong
    have hrs : recentStart cfg msgs.length mult15 < msgs.length :=
      recentStart_lt cfg msgs.length mult15 hn (by omega)
    have hpres := preservedList_getLast? cfg msgs flags mult15 hrs
    dsimp only
    split
    · rename_i htr
      rw [truncateWindow_getLast? _ _ (scaled_two_le mult15 hM) htr, hpres]
    · exact hpres

/-! ## C8 — last message preserved -/

/-- Claim C8: for a non-empty request (and a window configuration with at
least one preserved recent message and a cap of at least two, as in the
shipped defaults), the assembled message list ends with exactly the original
last message — passthrough, filtering and truncation included. -/
theorem assemble_last_message (cfg : AssemblyConfig) (req : ChatRequest) (intent : Intent)
    (flags : ℕ → Bool) (hn : 1 ≤ cfg.preserve_last_n) (hM : 2 ≤ cfg.max_messages)
    (hne : req.messages ≠ []) :
    (assemble cfg req intent flags).messages.getLast? = req.messages.getLast? := by
  unfold assemble
  split
  · rfl
  · exact slidingApply_getLast? cfg req.messages flags _ hn hM

/-- Witness for C8: the default configuration on a 12-message conversation
with no flags (the spec's scenario B shape). -/
theorem assemble_last_message_witness :
    (1 ≤ ({} : AssemblyConfig).preserve_last_n ∧ 2 ≤ ({} : AssemblyConfig).max_messages ∧
     reqAllFlagged.messages ≠ []) ∧
    (assemble {} reqAllFlagged Intent.casual (preserveFlags reqAllFlagged)).messages.getLast? =
      reqAllFlagged.messages.getLast? :=
  ⟨⟨by decide, by decide, by decide⟩,
   assemble_last_message {} reqAllFlagged Intent.casual (preserveFlags reqAllFlagged)
     (by decide) (by decide) (by decide)⟩

/-! ## C2 — assembled length bound and the equality condition -/

/-- The filtered window never grows, and keeps the full length exactly when
the history is already short, or the head is a system message, every middle
index is flagged, and the full length fits under the scaled cap. -/
theorem slidingApply_length (cfg : AssemblyConfig) (msgs : List Message)
    (flags : ℕ → Bool) (mult15 : Bool) (hM : 2 ≤ cfg.max_messages) :
    (slidingApply cfg msgs flags mult15).length ≤ msgs.length ∧
    ((slidingApply cfg msgs flags mult15).length = msgs.length ↔
      (msgs.length ≤ cfg.preserve_last_n + 1 ∨
       (sysHead msgs ≠ [] ∧
        (∀ i ∈ List.range' 1 (recentStart cfg msgs.length mult15 - 1), flags i = true) ∧
        msgs.length ≤ scaled cfg.max_messages mult15))) := by
  unfold slidingApply
  split
  · rename_i hshort
    exact ⟨le_rfl, by simp [hshort]⟩
  · rename_i hlong
    push_neg at hlong
    set rs := recentStart cfg msgs.length mult15 with hrs_def
    have hrs1 : 1 ≤ rs := le_max_left 1 _
    have hrsle : rs ≤ msgs.length := by
      rw [hrs_def]
      unfold recentStart
      omega
    have hs_le := sysHead_length_le msgs
    have hmid_le := midFlagged_length_le msgs flags rs
    have hplen : (preservedList cfg msgs flags mult15).length =
        (sysHead msgs).length + (midFlagged msgs flags rs).length + (msgs.length - rs) := by
      simp [preservedList, ← hrs_def, List.length_append, List.length_drop]
      omega
    have hMM := scaled_two_le (n := cfg.max_messages) mult15 hM
    dsimp only
    split
    · rename_i htr
      have hres := truncateWindow_length (preservedList cfg msgs flags mult15)
        (scaled cfg.max_messages mult15) hMM htr
      constructor
      · rw [hres]
        omega
      · rw [hres]
        constructor
        · intro h
          omega
        · rintro (h | ⟨hsys, hall, hlen⟩)
          · omega
          · have h1 : (sysHead msgs).length = 1 := by
              have := List.length_pos.mpr hsys
              omega
            have h2 : (midFlagged msgs flags rs).length = rs - 1 :=
              (midFlagged_length_eq_iff msgs flags rs).mpr hall
            omega
    · rename_i hntr
      push_neg at hntr
      constructor
      · omega
      · rw [hplen]
        constructor
        · intro h
          have h1 : (sysHead msgs).length = 1 := by omega
          have h2 : (midFlagged msgs flags rs).length = rs - 1 := by omega
          refine Or.inr ⟨?_, (midFlagged_length_eq_iff msgs flags rs).mp h2, ?_⟩
          · rw [← List.length_pos]
            omega
          · omega
        · rintro (h | ⟨hsys, hall, hlen⟩)
          · omega
          · have h1 : (sysHead msgs).length = 1 := by
              have := List.length_pos.mpr hsys
              omega
            have h2 : (midFlagged msgs flags rs).length = rs - 1 :=
              (midFlagged_length_eq_iff msgs flags rs).mpr hall
            omega

/-- Claim C2 fails on the code as stated: on `reqAllFlagged` (4 messages,
threshold `preserve_last_n + 1 = 3`, intent `casual`), the assembled list
keeps all 4 messages — the system head plus the flagged middle plus the tail
reproduce the input — although the intent is not `tool_use` and the length is
above the threshold. -/
theorem assemble_length_claim_cex :
    (assemble {} reqAllFlagged Intent.casual (preserveFlags reqAllFlagged)).messages.length =
      reqAllFlagged.messages.length ∧
    Intent.casual ≠ Intent.tool_use ∧
    ¬ (reqAllFlagged.messages.length ≤ ({} : AssemblyConfig).preserve_last_n + 1) := by
  decide

/-- Claim C2 amended: the assembled list never exceeds the original, with
equality iff the intent is `tool_use`, or the length is at most
`preserve_last_n + 1`, or the first message is a system message, every index
strictly between the system head and the recent tail is flagged, and the
length fits under the (multiplier-scaled) `max_messages` cap. -/
theorem assemble_length_iff (cfg : AssemblyConfig) (req : ChatRequest) (intent : Intent)
    (flags : ℕ → Bool) (hM : 2 ≤ cfg.max_messages) :
    (assemble cfg req intent flags).messages.length ≤ req.messages.length ∧
    ((assemble cfg req intent flags).messages.length = req.messages.length ↔
      (intent = Intent.tool_use ∨ req.messages.length ≤ cfg.preserve_last_n + 1 ∨
       (sysHead req.messages ≠ [] ∧
        (∀ i ∈ List.range' 1
          (recentStart cfg req.messages.length (decide (intent = Intent.retrieval)) - 1),
          flags i = true) ∧
        req.messages.length ≤ scaled cfg.max_messages (decide (intent = Intent.retrieval))))) := by
  unfold assemble
  split
  · rename_i hi
    simp [hi]
  · rename_i hi
    have h := slidingApply_length cfg req.messages flags (decide (intent = Intent.retrieval)) hM
    refine ⟨h.1, ?_⟩
    rw [h.2]
    simp [hi]

/-- Witness for C2's amended equality condition at the default configuration:
a 4-message history with an unflagged middle strictly shrinks. -/
theorem assemble_length_iff_witness :
    (2 ≤ ({} : AssemblyConfig).max_messages) ∧
    ((assemble {} reqAllFlagged Intent.coding (fun _ => false)).messages.length ≤
      reqAllFlagged.messages.length ∧
     ((assemble {} reqAllFlagged Intent.coding (fun _ => false)).messages.length =
        reqAllFlagged.messages.length ↔
      (Intent.coding = Intent.tool_use ∨
       reqAllFlagged.messages.length ≤ ({} : AssemblyConfig).preserve_last_n + 1 ∨
       (sysHead reqAllFlagged.messages ≠ [] ∧
        (∀ i ∈ List.range' 1
          (recentStart {} reqAllFlagged.messages.length
            (decide (Intent.coding = Intent.retrieval)) - 1),
          (fun _ : ℕ => false) i = true) ∧
        reqAllFlagged.messages.length ≤
          scaled ({} : AssemblyConfig).max_messages
            (decide (Intent.coding = Intent.retrieval)))))) :=
  ⟨by decide,
   assemble_length_iff {} reqAllFlagged Intent.coding (fun _ => false) (by decide)⟩

/-! ## C9 — hash embedder lemmas -/

theorem word32LE_length (w : ℕ) : (word32LE w).length = 4 := rfl

theorem word32BE_length (w : ℕ) : (word32BE w).length = 4 := rfl

theorem word32LE_lt (w : ℕ) : ∀ x ∈ word32LE w, x < 256 := by
  intro x hx
  simp only [word32LE, List.mem_cons, List.not_mem_nil, or_false] at hx
  rcases hx with h | h | h | h <;> omega

theorem word32BE_lt (w : ℕ) : ∀ x ∈ word32BE w, x < 256 := by
  intro x hx
  simp only [word32BE, List.mem_cons, List.not_mem_nil, or_false] at hx
  rcases hx with h | h | h | h <;> omega

/-- An MD5 digest is 16 bytes. -/
theorem md5Bytes_length (msg : List ℕ) : (md5Bytes msg).length = 16 := by
  simp [md5Bytes, word32LE]

/-- Bytes concatenate to bytes. -/
theorem all_lt_append {l1 l2 : List ℕ} (h1 : ∀ x ∈ l1, x < 256) (h2 : ∀ x ∈ l2, x < 256) :
    ∀ x ∈ l1 ++ l2, x < 256 := by
  intro x hx
  rcases List.mem_append.mp hx with h | h
  · exact h1 x h
  · exact h2 x h

/-- MD5 digest entries are bytes. -/
theorem md5Bytes_lt (msg : List ℕ) : ∀ x ∈ md5Bytes msg, x < 256 := by
  unfold md5Bytes
  exact all_lt_append (all_lt_append (all_lt_append (word32LE_lt _) (word32LE_lt _))
    (word32LE_lt _)) (word32LE_lt _)

/-- A SHA-256 digest is 32 bytes. -/
theorem sha256Bytes_length (msg : List ℕ) : (sha256Bytes msg).length = 32 := by
  simp [sha256Bytes, word32BE]

/-- SHA-256 digest entries are bytes. -/
theorem sha256Bytes_lt (msg : List ℕ) : ∀ x ∈ sha256Bytes msg, x < 256 := by
  unfold sha256Bytes
  exact all_lt_append (all_lt_append (all_lt_append (all_lt_append (all_lt_append
    (all_lt_append (all_lt_append (word32BE_lt _) (word32BE_lt _)) (word32BE_lt _))
    (word32BE_lt _)) (word32BE_lt _)) (word32BE_lt _)) (word32BE_lt _)) (word32BE_lt _)

/-- The combined digest is 48 bytes long. -/
theorem combinedDigest_length (t : String) : (combinedDigest t).length = 48 := by
  simp [combinedDigest, md5Bytes_length, sha256Bytes_length]

/-- Combined digest entries are bytes. -/
theorem combinedDigest_lt (t : String) : ∀ x ∈ combinedDigest t, x < 256 := by
  intro x hx
  simp only [combinedDigest, List.mem_append] at hx
  rcases hx with h | h
  · exact md5Bytes_lt _ _ h
  · exact sha256Bytes_lt _ _ h

/-- The embedding depends on the text only through its combined digest. -/
theorem embed_eq_of_combined {dim : ℕ} {t1 t2 : String}
    (h : combinedDigest t1 = combinedDigest t2) : embed dim t1 = embed dim t2 := by
  unfold embed hashVector
  rw [h]

/-- The embedding depends on the text only through `lower().strip()`. -/
theorem embed_eq_of_normalized {dim : ℕ} {t1 t2 : String}
    (h : pyNormalize t1 = pyNormalize t2) : embed dim t1 = embed dim t2 :=
  embed_eq_of_combined (by unfold combinedDigest; rw [h])

theorem sumSq_nil : sumSq [] = 0 := rfl

theorem sumSq_cons (x : ℚ) (xs : List ℚ) : sumSq (x :: xs) = x * x + sumSq xs := by
  simp [sumSq]

theorem sumSq_nonneg (v : List ℚ) : 0 ≤ sumSq v := by
  induction v with
  | nil => simp [sumSq_nil]
  | cons x xs ih =>
    rw [sumSq_cons]
    nlinarith [mul_self_nonneg x]

/-- A vector of nonzero entries has positive energy. -/
theorem sumSq_pos_of_ne_nil (v : List ℚ) (hne : v ≠ []) (hall : ∀ x ∈ v, x ≠ 0) :
    0 < sumSq v := by
  cases v with
  | nil => exact absurd rfl hne
  | cons x xs =>
    rw [sumSq_cons]
    have hx : x ≠ 0 := hall x (List.mem_cons_self x xs)
    nlinarith [mul_self_pos.mpr hx, sumSq_nonneg xs]

/-- No byte maps to the zero coordinate (`b / 127.5 - 1 = 0` would need the
non-integer `b = 127.5`). -/
theorem byteToCoord_ne_zero (b : ℕ) : byteToCoord b ≠ 0 := by
  unfold byteToCoord
  intro h
  have h2 : ((2 * b : ℕ) : ℚ) = 255 := by
    push_cast
    linarith
  have : (2 * b : ℕ) = 255 := by exact_mod_cast h2
  omega

theorem hashVector_length (dim : ℕ) (t : String) : (hashVector dim t).length = dim := by
  simp [hashVector]

theorem hashVector_ne_zero (dim : ℕ) (t : String) : ∀ x ∈ hashVector dim t, x ≠ 0 := by
  intro x hx
  simp only [hashVector, List.mem_map] at hx
  obtain ⟨i, -, rfl⟩ := hx
  exact byteToCoord_ne_zero _

/-- For a positive dimension the pre-normalization vector has positive
energy, so the `norm > 0` branch of the source is taken. -/
theorem hashVector_sumSq_pos (dim : ℕ) (t : String) (h : 0 < dim) :
    0 < sumSq (hashVector dim t) := by
  apply sumSq_pos_of_ne_nil _ _ (hashVector_ne_zero dim t)
  intro hc
  have := congrArg List.length hc
  rw [hashVector_length] at this
  simp at this
  omega

/-- Casting the rational energy to the reals matches the real sum of squares. -/
theorem sumSq_cast (v : List ℚ) :
    ((sumSq v : ℚ) : ℝ) = (v.map (fun x : ℚ => ((x : ℝ)) ^ 2)).sum := by
  induction v with
  | nil => simp [sumSq_nil]
  | cons x xs ih =>
    rw [sumSq_cons, List.map_cons, List.sum_cons, ← ih]
    push_cast
    ring

/-- Non-whitespace runs survive `dropWhile isWhitespace`. -/
theorem dropWhile_replicate_a (n : ℕ) :
    (List.replicate n 'a').dropWhile Char.isWhitespace = List.replicate n 'a' := by
  cases n with
  | zero => rfl
  | succ n =>
    rw [List.replicate_succ, List.dropWhile_cons, if_neg (by decide)]

theorem trimChars_replicate_a (n : ℕ) :
    trimChars (List.replicate n 'a') = List.replicate n 'a' := by
  unfold trimChars
  rw [dropWhile_replicate_a, List.reverse_replicate, dropWhile_replicate_a,
      List.reverse_replicate]

/-- The all-`a` strings are fixed by `lower().strip()`. -/
theorem pyNormalize_repA (n : ℕ) : pyNormalize (repA n) = repA n := by
  unfold pyNormalize repA
  simp only [List.map_replicate]
  rw [show Char.toLower 'a' = 'a' from by decide, trimChars_replicate_a]

/-- The all-`a` strings are pairwise distinct. -/
theorem repA_inj {n1 n2 : ℕ} (h : repA n1 = repA n2) : n1 = n2 := by
  have hdata : List.replicate n1 'a' = List.replicate n2 'a' := String.ext_iff.mp h
  have := congrArg List.length hdata
  simpa using this

/-! ## C9 — hash embedder theorems -/

/-- Claim C9 amended: the embedding is invariant under
`lower().strip()`-equality (the forward implication of the claimed
equivalence is dropped), and every embedding of a positive-dimension embedder
is a unit vector — its Euclidean norm is within `1e-6` of 1 (it is exactly
1). -/
theorem hash_embedder_spec :
    (∀ (dim : ℕ) (t1 t2 : String), pyNormalize t1 = pyNormalize t2 →
      embed dim t1 = embed dim t2) ∧
    (∀ (dim : ℕ) (t : String), 0 < dim →
      |Real.sqrt (((embed dim t).map (fun x => x ^ 2)).sum) - 1| ≤ 1 / 1000000) := by
  constructor
  · intro dim t1 t2 h
    exact embed_eq_of_normalized h
  · intro dim t hdim
    have hSQ : 0 < sumSq (hashVector dim t) := hashVector_sumSq_pos dim t hdim
    have hS : (0 : ℝ) < ((sumSq (hashVector dim t) : ℚ) : ℝ) := by exact_mod_cast hSQ
    have hnorm : 0 < Real.sqrt ((sumSq (hashVector dim t) : ℚ) : ℝ) := Real.sqrt_pos.mpr hS
    have hsum : ((embed dim t).map (fun x => x ^ 2)).sum = 1 := by
      unfold embed l2NormalizeR
      rw [if_pos hnorm, List.map_map]
      have hrw : ((fun x : ℝ => x ^ 2) ∘
          fun x : ℚ => (x : ℝ) / Real.sqrt ((sumSq (hashVector dim t) : ℚ) : ℝ)) =
          fun x : ℚ => ((x : ℝ)) ^ 2 *
            ((Real.sqrt ((sumSq (hashVector dim t) : ℚ) : ℝ)) ^ 2)⁻¹ := by
        funext x
        simp only [Function.comp_apply]
        rw [div_eq_mul_inv, mul_pow, inv_pow]
      rw [hrw, List.sum_map_mul_right, ← sumSq_cast,
          Real.sq_sqrt hS.le, mul_inv_cancel₀ (ne_of_gt hS)]
    rw [hsum, Real.sqrt_one]
    norm_num

/-- Claim C9's equivalence is false: the embedding factors through the
48-byte combined digest, whose range is finite, so two of the infinitely many
pairwise distinct normalized strings `a`, `aa`, `aaa`, … must share an
embedding while their normalizations differ. -/
theorem hash_embedder_claim_cex :
    ¬ (∀ t1 t2 : String, embed 384 t1 = embed 384 t2 ↔ pyNormalize t1 = pyNormalize t2) := by
  intro hiff
  obtain ⟨n1, n2, hne, heq⟩ := Finite.exists_ne_map_eq_of_infinite
    (fun n : ℕ => (fun i : Fin 48 =>
      (⟨(combinedDigest (repA n)).getD i.val 0 % 256, Nat.mod_lt _ (by norm_num)⟩ : Fin 256)))
  have hcomb : combinedDigest (repA n1) = combinedDigest (repA n2) := by
    apply List.ext_getElem
    · rw [combinedDigest_length, combinedDigest_length]
    · intro i h1 h2
      have hi : i < 48 := by rwa [combinedDigest_length] at h1
      have hfi := congrFun heq ⟨i, hi⟩
      simp only [Fin.mk.injEq] at hfi
      rw [List.getD_eq_getElem _ _ h1, List.getD_eq_getElem _ _ h2] at hfi
      have hb1 : (combinedDigest (repA n1))[i] < 256 :=
        combinedDigest_lt _ _ (List.getElem_mem h1)
      have hb2 : (combinedDigest (repA n2))[i] < 256 :=
        combinedDigest_lt _ _ (List.getElem_mem h2)
      rwa [Nat.mod_eq_of_lt hb1, Nat.mod_eq_of_lt hb2] at hfi
  have hnorm := (hiff _ _).mp (embed_eq_of_combined hcomb)
  rw [pyNormalize_repA, pyNormalize_repA] at hnorm
  exact hne (repA_inj hnorm)

/-- Witness for C9: `A` and `a` normalize identically, so they embed
identically; and a concrete embedding has unit norm. -/
theorem hash_embedder_spec_witness :
    (pyNormalize "A" = pyNormalize "a" ∧ embed 384 "A" = embed 384 "a") ∧
    (0 < 384 ∧
     |Real.sqrt (((embed 384 "hi").map (fun x => x ^ 2)).sum) - 1| ≤ 1 / 1000000) :=
  ⟨⟨by decide, hash_embedder_spec.1 384 "A" "a" (by decide)⟩,
   ⟨by decide, hash_embedder_spec.2 384 "hi" (by decide)⟩⟩

end Claw
